import Mathlib

set_option maxRecDepth 8000

/-!
Verification of the STM32H7 syslog logging core (`src/component/logger/syslog.c`)
against its natural-language specification.

The C code is shallowly embedded: C strings become `List Char` (NUL-free),
machine integers become `Nat`/`Int` with explicit `% 2^32` where overflow
matters, `NULL`-able pointers become `Option`, and the outcomes of external
calls (FreeRTOS mutex take, lwIP `udp_new`/`udp_bind`/`udp_sendto`,
`pbuf_alloc`/`pbuf_take`, `ipaddr_aton`, the RTC timestamp) are explicit
environment parameters.  The embedding is sequential: one operation runs to
completion at a time, which matches every claim below (the guard-timeout
outcomes remain visible through the environment booleans).
-/

namespace Syslog2Proof

/-- Log levels are plain `int` in the C header (`log_level_t`):
NONE=0, ERROR=1, WARNING=2, INFO=3, DEBUG=4, VERBOSE=5. -/
abbrev LogLevel := Int

def LOG_LEVEL_NONE : LogLevel := 0
def LOG_LEVEL_ERROR : LogLevel := 1
def LOG_LEVEL_WARNING : LogLevel := 2
def LOG_LEVEL_INFO : LogLevel := 3
def LOG_LEVEL_DEBUG : LogLevel := 4
def LOG_LEVEL_VERBOSE : LogLevel := 5

/-- `SYSLOG_MAX_MESSAGE_SIZE` — size of `line_buf` and the format buffer. -/
def SYSLOG_MAX_MESSAGE_SIZE : Nat := 1024

/-- `Syslog_t` (syslog.c:33-45).  The lwIP `ip_addr_t` is abstracted to a
`Nat` token produced by the (external) `ipaddr_aton`; `struct udp_pcb*`
becomes an `Option Nat` handle; the FreeRTOS mutex handle is kept only as
"was created" (`Bool`), its acquisition outcome being part of the
environment; `uint32_t` counters are `Nat` incremented mod `2^32`. -/
structure Syslog where
  server : Nat
  port : Nat
  facility : Int
  min_level : LogLevel
  hostname : List Char
  app_name : List Char
  initialized : Bool
  udp : Option Nat
  mutex : Bool
  send_count : Nat
  failed_count : Nat
  deriving Repr, DecidableEq

/-- The static initializer of `logger_syslog` (syslog.c:48-60). -/
def logger_syslog_init : Syslog :=
  { server := 0
    port := 514
    facility := 1  -- SYSLOG_FACILITY_USER
    min_level := LOG_LEVEL_VERBOSE
    hostname := "craner".data
    app_name := "logger".data
    initialized := false
    udp := none
    mutex := false
    send_count := 0
    failed_count := 0 }

/-- `syslog_get_severity` (syslog.c:67-79): the fixed switch table. -/
def syslog_get_severity (level : LogLevel) : Int :=
  if level = 0 then 0
  else if level = 1 then 3
  else if level = 2 then 4
  else if level = 3 then 6
  else if level = 4 then 7
  else if level = 5 then 7
  else 6

/-- `syslog_get_priority` (syslog.c:81-84). -/
def syslog_get_priority (s : Syslog) (level : LogLevel) : Int :=
  s.facility * 8 + syslog_get_severity level

/-- Decimal rendering of a `Nat`, as `snprintf`'s `%d` would produce for a
nonnegative value. -/
def natDec (n : Nat) : List Char := Nat.toDigits 10 n

/-- Decimal rendering of an `Int` (`%d`). -/
def intDec (i : Int) : List Char :=
  if i < 0 then '-' :: natDec (-i).toNat else natDec i.toNat

/-- `syslog_format_msg` (syslog.c:86-103).  `buffer`/`bufferSize` are the
fixed 1024-byte stack buffer of `logger_output`, so `bufferSize < 64` is
never hit there; the size check is kept.  The timestamp string produced by
`board_get_timestamp` is an environment input (`ts`).  Returns `none` when
the rendered record would not fit (`written >= bufferSize`, in which case
the C function returns length 0). -/
def syslog_format_msg (s : Syslog) (bufferSize : Nat) (ts : List Char)
    (level : LogLevel) (tag msg : Option (List Char)) : Option (List Char) :=
  if bufferSize < 64 then none
  else
    let rendered : List Char :=
      '<' :: intDec (syslog_get_priority s level) ++ '>' ::
      ts ++ ' ' :: s.hostname ++ ' ' :: s.app_name ++
      '[' :: (tag.getD ("unknown".data)) ++ ']' :: ':' :: ' ' :: (msg.getD [])
    if bufferSize ≤ rendered.length then none else some rendered

/-- Outcomes of the external calls made by `logger_output`. -/
structure OutEnv where
  takeOk : Bool      -- xSemaphoreTake(s->mutex, 100ms)
  ts : List Char     -- board_get_timestamp output
  allocOk : Bool     -- pbuf_alloc
  pbufTakeOk : Bool  -- pbuf_take
  sendOk : Bool      -- udp_sendto
  deriving Repr, DecidableEq

/-- Result of one `logger_output` call: the updated state, the C return
value, the datagram handed successfully to `udp_sendto` (if any), and the
raw text written to the local `printf` fallback sink (if any). -/
structure OutRes where
  st : Syslog
  ret : Bool
  sent : Option (List Char)
  fallback : Option (List Char)
  deriving Repr, DecidableEq

/-- `logger_output` (syslog.c:180-233).  Branches follow the C line by
line; the guarded re-check of `initialized`/`udp` (syslog.c:194) is kept
even though it cannot change in the sequential embedding.  A `printf`
of `message` (NULL passes the pointer through) is recorded in
`fallback`. -/
def logger_output (s : Syslog) (env : OutEnv) (level : LogLevel)
    (tag msg : Option (List Char)) : OutRes :=
  if s.initialized ∧ s.udp.isSome ∧ s.mutex then
    if level > s.min_level then
      ⟨s, true, none, none⟩
    else if ¬ env.takeOk then
      ⟨{ s with failed_count := (s.failed_count + 1) % 2 ^ 32 }, false, none, none⟩
    else if ¬ (s.initialized ∧ s.udp.isSome) then
      -- double-check failed: count, give mutex, fall through to printf
      ⟨{ s with failed_count := (s.failed_count + 1) % 2 ^ 32 }, true, none, msg⟩
    else
      match syslog_format_msg s SYSLOG_MAX_MESSAGE_SIZE env.ts level tag msg with
      | none =>
        ⟨{ s with failed_count := (s.failed_count + 1) % 2 ^ 32 }, false, none, none⟩
      | some buffer =>
        if env.allocOk ∧ env.pbufTakeOk ∧ env.sendOk then
          ⟨{ s with send_count := (s.send_count + 1) % 2 ^ 32 }, true, some buffer, none⟩
        else
          ⟨{ s with failed_count := (s.failed_count + 1) % 2 ^ 32 }, false, none, none⟩
  else
    ⟨s, true, none, msg⟩

/-- Outcomes of the external calls made by `init_logger`. -/
structure InitEnv where
  parsed : Option Nat  -- ipaddr_aton result (none = malformed string)
  mutexCreateOk : Bool -- xSemaphoreCreateMutex
  takeOk : Bool        -- xSemaphoreTake
  newPcb : Option Nat  -- udp_new result (none = allocation failure)
  bindOk : Bool        -- udp_bind
  deriving Repr, DecidableEq

/-- A `Syslog` state together with the multiset of live lwIP pcb handles,
used to state the single-live-handle property.  `udp_new` conses the fresh
handle, `udp_remove` erases it. -/
structure World where
  s : Syslog
  live : List Nat
  deriving Repr, DecidableEq

/-- The cleanup of an existing transport handle in `init_logger`
(syslog.c:143-151): if initialized, `udp_remove` the pcb (if any) and
clear `initialized`. -/
def init_cleanup (w : World) : World :=
  if w.s.initialized then
    match w.s.udp with
    | some h => ⟨{ w.s with udp := none, initialized := false }, w.live.erase h⟩
    | none => ⟨{ w.s with initialized := false }, w.live⟩
  else w

/-- `udp_new`/`udp_bind` in `init_logger` (syslog.c:156-165): on
allocation failure the pcb stays NULL, on bind failure the fresh pcb is
removed again. -/
def init_create (w : World) (env : InitEnv) : World :=
  match env.newPcb with
  | none => ⟨{ w.s with udp := none }, w.live⟩
  | some h =>
    if env.bindOk then ⟨{ w.s with udp := some h }, h :: w.live⟩
    else ⟨{ w.s with udp := none }, (h :: w.live).erase h⟩

/-- The guarded body of `init_logger` (syslog.c:142-177): cleanup of any
existing handle, installation of the new endpoint, creation/binding of
the fresh pcb, and the final `initialized` update. -/
def init_main (w : World) (env : InitEnv) (server : Nat) (port : Int) :
    World × Bool :=
  let w₁ := init_cleanup w
  let w₂ : World := ⟨{ w₁.s with server := server, port := port.toNat }, w₁.live⟩
  let w₃ := init_create w₂ env
  if w₃.s.udp.isNone then (w₃, false)
  else (⟨{ w₃.s with initialized := true }, w₃.live⟩, true)

/-- `init_logger` (syslog.c:105-178) as a transition on `World`.
`ipstrNull` models `ipstr == NULL`; `env.parsed` the `ipaddr_aton`
outcome; `port` is the C `int` argument. -/
def init_logger (w : World) (env : InitEnv) (ipstrNull : Bool) (port : Int) :
    World × Bool :=
  if ipstrNull then (w, false)
  else if port ≤ 0 ∨ port > 65535 then (w, false)
  else
    match env.parsed with
    | none => (w, false)
    | some server =>
      -- create the mutex if missing (syslog.c:129-135)
      if ¬ w.s.mutex ∧ ¬ env.mutexCreateOk then (w, false)
      else if ¬ env.takeOk then (⟨{ w.s with mutex := true }, w.live⟩, false)
      else init_main ⟨{ w.s with mutex := true }, w.live⟩ env server port

/-- `logger_set_min_level` (syslog.c:342-350). -/
def logger_set_min_level (s : Syslog) (takeOk : Bool) (min_level : LogLevel) : Syslog :=
  if ¬ s.mutex then s
  else if ¬ takeOk then s
  else { s with min_level := min_level }

/-- `logger_get_min_level` (syslog.c:352-357). -/
def logger_get_min_level (s : Syslog) : LogLevel := s.min_level

/-- `logger_get_stats` (syslog.c:359-369).  `none` models the paths that
leave the output parameters untouched (NULL pointers, missing mutex,
acquisition timeout); `ptrsOk` models `sent && failed`. -/
def logger_get_stats (s : Syslog) (ptrsOk takeOk : Bool) : Option (Nat × Nat) :=
  if ¬ ptrsOk then none
  else if ¬ s.mutex then none
  else if ¬ takeOk then none
  else some (s.send_count, s.failed_count)

/-- `logger_reset_stats` (syslog.c:371-380). -/
def logger_reset_stats (s : Syslog) (takeOk : Bool) : Syslog :=
  if ¬ s.mutex then s
  else if ¬ takeOk then s
  else { s with send_count := 0, failed_count := 0 }

/-- `logger_is_initialized` (syslog.c:382-386). -/
def logger_is_initialized (s : Syslog) : Bool := s.initialized

/-! ### Line accumulator (`logger_printf_line`, syslog.c:250-340) -/

/-- The `static` accumulator state of `logger_printf_line`
(syslog.c:252-255): `line_buf`/`line_len` become `buf`, plus the pending
attributes `cur_level` and `cur_tag`. -/
structure LineState where
  buf : List Char
  cur_level : LogLevel
  cur_tag : List Char
  deriving Repr, DecidableEq

/-- Initial values of the statics: empty buffer, `LOG_LEVEL_DEBUG`,
empty tag. -/
def line_state_init : LineState := ⟨[], LOG_LEVEL_DEBUG, []⟩

/-- One record handed to `logger_output` by the accumulator:
the `(level, tag, message)` triple of the call. -/
structure LogRec where
  level : LogLevel
  tag : List Char
  msg : List Char
  deriving Repr, DecidableEq

/-- `sizeof(cur_tag)` in `logger_printf_line`. -/
def TAG_CAP : Nat := 48

/-- A character `strpbrk(p, "\r\n")` stops at. -/
def isTerm (c : Char) : Bool := c = '\r' || c = '\n'

/-- Characters `strpbrk` skips over (the current chunk). -/
def notTerm (c : Char) : Bool := ! isTerm c

/-- `tag ? tag : "printf"` — the effective tag used when storing
attributes or emitting slices. -/
def effTag (tagO : Option (List Char)) : List Char := tagO.getD ("printf".data)

/-- The forced-slicing loop (syslog.c:306-313): while the chunk exceeds
the full buffer capacity, emit `capacity-1`-byte slices directly (tagged
with the call's raw level and tag) and continue with the rest. -/
def sliceChunk (lvl : LogLevel) (tagO : Option (List Char)) (c : List Char) :
    List LogRec × List Char :=
  if h : c.length > SYSLOG_MAX_MESSAGE_SIZE - 1 then
    let seg := c.take (SYSLOG_MAX_MESSAGE_SIZE - 1)
    let (rs, rem) := sliceChunk lvl tagO (c.drop (SYSLOG_MAX_MESSAGE_SIZE - 1))
    (⟨lvl, effTag tagO, seg⟩ :: rs, rem)
  else ([], c)
termination_by c.length
decreasing_by
  simp only [List.length_drop]
  simp only [SYSLOG_MAX_MESSAGE_SIZE] at h ⊢
  omega

/-- The forced attribute-change flush (syslog.c:283-290): with a
non-empty buffer, a change of level, or a non-NULL tag differing (by
`strncmp(cur_tag, tag, sizeof(cur_tag))`) from a non-empty stored tag,
emits the pending line under the pending attributes and clears the
buffer and stored tag. -/
def attrFlush (lvl : LogLevel) (tagO : Option (List Char)) (st : LineState) :
    List LogRec × LineState :=
  if st.buf ≠ [] ∧
      ((tagO.isSome ∧ st.cur_tag ≠ [] ∧
          st.cur_tag.take TAG_CAP ≠ (tagO.getD []).take TAG_CAP)
        ∨ lvl ≠ st.cur_level) then
    ([⟨st.cur_level, if st.cur_tag ≠ [] then st.cur_tag else effTag tagO, st.buf⟩],
     { st with buf := ([] : List Char), cur_tag := ([] : List Char) })
  else (([] : List LogRec), st)

/-- Recording the attributes when a new line starts (syslog.c:292-297):
`strncpy(cur_tag, use_tag, sizeof(cur_tag)-1)` stores at most 47
characters. -/
def setAttrs (lvl : LogLevel) (tagO : Option (List Char)) (st : LineState) : LineState :=
  if st.buf = [] then
    { st with cur_level := lvl, cur_tag := (effTag tagO).take (TAG_CAP - 1) }
  else st

/-- Capacity handling (syslog.c:299-314): when the chunk does not fit in
the remaining space, flush whatever is pending (under the pending
attributes), then emit full-capacity slices while the chunk alone
exceeds the whole buffer.  Returns the emitted records, the state, and
the still-to-append remainder of the chunk. -/
def capacityFlush (lvl : LogLevel) (tagO : Option (List Char)) (chunk : List Char)
    (st : LineState) : List LogRec × LineState × List Char :=
  if chunk.length > SYSLOG_MAX_MESSAGE_SIZE - 1 - st.buf.length then
    let fl : List LogRec × LineState :=
      if st.buf ≠ [] then
        ([⟨st.cur_level, st.cur_tag, st.buf⟩], { st with buf := ([] : List Char) })
      else (([] : List LogRec), st)
    let sl := sliceChunk lvl tagO chunk
    (fl.1 ++ sl.1, fl.2, sl.2)
  else (([] : List LogRec), st, chunk)

/-- Terminator consumption (syslog.c:326-332): a `\r\n` or `\n\r` pair is
consumed as one terminator, any other terminator consumes one
character. -/
def termSkip (rest : List Char) : List Char :=
  match rest with
  | [] => []
  | c :: cs =>
    if c = '\r' ∧ cs.head? = some '\n' then cs.tail
    else if c = '\n' ∧ cs.head? = some '\r' then cs.tail
    else cs

/-- One iteration of the `while (*p)` loop of `logger_printf_line`
(syslog.c:279-333), for a non-empty remaining input `p`.  Returns the
records emitted during the iteration, the updated accumulator state, and
the remaining input. -/
def lineStep (lvl : LogLevel) (tagO : Option (List Char)) (p : List Char)
    (st : LineState) : List LogRec × LineState × List Char :=
  let chunk := p.takeWhile notTerm
  let rest := p.drop chunk.length
  let fl := attrFlush lvl tagO st
  let st₂ := setAttrs lvl tagO fl.2
  let cap := capacityFlush lvl tagO chunk st₂
  -- append the (now fitting) segment (syslog.c:316-318)
  let st₄ := { cap.2.1 with buf := cap.2.1.buf ++ cap.2.2 }
  -- terminator handling (syslog.c:320-333)
  match rest with
  | [] => (fl.1 ++ cap.1, st₄, [])
  | c :: cs =>
    (fl.1 ++ cap.1 ++ [⟨st₄.cur_level, st₄.cur_tag, st₄.buf⟩],
     { st₄ with buf := ([] : List Char), cur_tag := ([] : List Char) },
     termSkip (c :: cs))

/-- Prepends one iteration's records to the remaining run's result. -/
def consStep (r : List LogRec) (x : List LogRec × LineState) :
    List LogRec × LineState :=
  (r ++ x.1, x.2)

/-- The full `while (*p)` loop, driven by a fuel argument (the loop
consumes at least one input character per iteration, so fuel
`p.length` is always enough — see `runLineFuel_fuel`). -/
def runLineFuel (lvl : LogLevel) (tagO : Option (List Char)) :
    Nat → List Char → LineState → List LogRec × LineState
  | _, [], st => ([], st)
  | 0, _ :: _, st => ([], st)
  | f + 1, c :: cs, st =>
    consStep (lineStep lvl tagO (c :: cs) st).1
      (runLineFuel lvl tagO f (lineStep lvl tagO (c :: cs) st).2.2
        (lineStep lvl tagO (c :: cs) st).2.1)

/-- The loop of syslog.c:279-334 applied to input `p`. -/
def runLine (lvl : LogLevel) (tagO : Option (List Char)) (p : List Char)
    (st : LineState) : List LogRec × LineState :=
  runLineFuel lvl tagO p.length p st

/-- `logger_printf_line` (syslog.c:250-340): the call's format/arguments
are first rendered by `vsnprintf` into a 256-byte buffer `tmp`, i.e.
truncated to at most 255 characters, and the loop then runs on `tmp`.
`rendered` is the full (untruncated) text `vsnprintf` would produce.  The
modeled path is the one with `format != NULL` and the line mutex
acquired; the returned records are the `(level, tag, message)` triples
passed to `logger_output`, in order. -/
def logger_printf_line (lvl : LogLevel) (tagO : Option (List Char))
    (rendered : List Char) (st : LineState) : List LogRec × LineState :=
  runLine lvl tagO (rendered.take 255) st

/-! ### Concrete states used by witnesses and counterexamples -/

/-- A successfully initialized client state (as produced by a successful
`init_logger` call on the static instance). -/
def s_ready : Syslog :=
  { logger_syslog_init with initialized := true, udp := some 1, mutex := true }

/-- An environment in which every external call succeeds. -/
def env_all_ok : OutEnv :=
  { takeOk := true
    ts := "2026-01-01 00:00:00".data
    allocOk := true
    pbufTakeOk := true
    sendOk := true }

/-- The accumulator-state invariant used for chunk-boundary composition:
either nothing is pending, or the pending attributes are exactly the
calling level and tag. -/
def StOk (lvl : LogLevel) (t : List Char) (st : LineState) : Prop :=
  st.buf = [] ∨ (st.cur_tag = t ∧ st.cur_level = lvl)

/-! ### Basic properties of the accumulator loop -/

lemma termSkip_length_le (c : Char) (cs : List Char) :
    (termSkip (c :: cs)).length ≤ cs.length := by
  simp only [termSkip]
  split_ifs <;> simp [List.length_tail]

lemma lineStep_rest_lt (lvl : LogLevel) (tagO : Option (List Char)) (p : List Char)
    (st : LineState) (hp : p ≠ []) :
    (lineStep lvl tagO p st).2.2.length < p.length := by
  have hlp : 0 < p.length := List.length_pos.mpr hp
  simp only [lineStep]
  cases hr : p.drop (p.takeWhile notTerm).length with
  | nil => simpa using hlp
  | cons c cs =>
    have h2 : cs.length + 1 ≤ p.length := by
      have := congrArg List.length hr
      simp only [List.length_drop, List.length_cons] at this
      omega
    have h1 := termSkip_length_le c cs
    simp only []
    omega

lemma runLineFuel_eq_length (lvl : LogLevel) (tagO : Option (List Char)) :
    ∀ (f : Nat) (p : List Char) (st : LineState), p.length ≤ f →
      runLineFuel lvl tagO f p st = runLineFuel lvl tagO p.length p st := by
  intro f
  induction f using Nat.strong_induction_on with
  | _ f ih =>
    intro p st hp
    match f, p with
    | g, [] => simp [runLineFuel]
    | 0, c :: cs => simp at hp
    | f + 1, c :: cs =>
      have hk := lineStep_rest_lt lvl tagO (c :: cs) st (by simp)
      simp only [List.length_cons] at hk hp ⊢
      simp only [runLineFuel]
      rw [ih f (by omega) _ _ (by omega),
          ih cs.length (by omega) _ _ (by omega)]

lemma runLineFuel_fuel (lvl : LogLevel) (tagO : Option (List Char)) (f : Nat)
    (p : List Char) (st : LineState) (hp : p.length ≤ f) :
    runLineFuel lvl tagO f p st = runLine lvl tagO p st :=
  runLineFuel_eq_length lvl tagO f p st hp

/-- The one-step unfolding of `runLine` on a non-empty input. -/
lemma runLine_cons (lvl : LogLevel) (tagO : Option (List Char)) (c : Char)
    (cs : List Char) (st : LineState) :
    runLine lvl tagO (c :: cs) st =
      consStep (lineStep lvl tagO (c :: cs) st).1
        (runLine lvl tagO (lineStep lvl tagO (c :: cs) st).2.2
          (lineStep lvl tagO (c :: cs) st).2.1) := by
  have hk := lineStep_rest_lt lvl tagO (c :: cs) st (by simp)
  simp only [List.length_cons] at hk
  simp only [runLine, List.length_cons, runLineFuel]
  rw [runLineFuel_fuel lvl tagO cs.length _ _ (by omega)]
  rfl

lemma runLine_nil (lvl : LogLevel) (tagO : Option (List Char)) (st : LineState) :
    runLine lvl tagO [] st = ([], st) := rfl

/-! ## Theorems -/

/-- **C1** (corrected), counterexample: on guard-acquisition timeout the
claim says `logger_output` falls back to the local sink and returns
degraded-ok (`true`); on an initialized state with the mutex take timing
out, the code instead returns `false` and writes nothing to the local
sink (it does increment `failCount`). -/
theorem emit_guard_timeout_cex :
    (logger_output s_ready { env_all_ok with takeOk := false } LOG_LEVEL_ERROR
        (some ['T']) (some ['m'])).ret = false ∧
    (logger_output s_ready { env_all_ok with takeOk := false } LOG_LEVEL_ERROR
        (some ['T']) (some ['m'])).fallback = none ∧
    (logger_output s_ready { env_all_ok with takeOk := false } LOG_LEVEL_ERROR
        (some ['T']) (some ['m'])).st.failed_count = 1 := by
  decide

/-- **C1** (amended): for every initialized state, when `logger_output`
fails to acquire the state guard within the bounded wait, it increments
`failCount` and returns fail (`false`), without touching the transport
and without writing to the local sink. -/
theorem emit_guard_timeout_counts_and_fails (s : Syslog) (env : OutEnv)
    (level : LogLevel) (tag msg : Option (List Char))
    (hinit : s.initialized = true) (hudp : s.udp.isSome = true)
    (hmx : s.mutex = true) (hlv : level ≤ s.min_level)
    (htake : env.takeOk = false) :
    logger_output s env level tag msg =
      ⟨{ s with failed_count := (s.failed_count + 1) % 2 ^ 32 }, false, none, none⟩ := by
  simp [logger_output, hinit, hudp, hmx, htake, not_lt.mpr hlv]

/-- Witness for `emit_guard_timeout_counts_and_fails` at a concrete
initialized state. -/
theorem emit_guard_timeout_counts_and_fails_witness :
    logger_output s_ready { env_all_ok with takeOk := false } LOG_LEVEL_WARNING
        (some ['T']) (some ['m']) =
      ⟨{ s_ready with failed_count := 1 }, false, none, none⟩ := by
  have h := emit_guard_timeout_counts_and_fails s_ready
    { env_all_ok with takeOk := false } LOG_LEVEL_WARNING (some ['T']) (some ['m'])
    (by decide) (by decide) (by decide) (by decide) (by decide)
  rw [h]
  decide

/-- **C2** (corrected), counterexample: with the configured minimum level
`DEBUG` and a message at level `VERBOSE`, the severity of `VERBOSE` (7)
is equal to (hence "worse than or equal to") the severity of the minimum
(7), so the claim says the message is dispatched; the code compares the
numeric *levels* (`level > s->min_level`) and silently drops it: no
datagram, no counter change, return `true`. -/
theorem level_filter_severity_cex :
    syslog_get_severity LOG_LEVEL_VERBOSE ≤ syslog_get_severity LOG_LEVEL_DEBUG ∧
    logger_output { s_ready with min_level := LOG_LEVEL_DEBUG } env_all_ok
        LOG_LEVEL_VERBOSE (some ['T']) (some ['m']) =
      ⟨{ s_ready with min_level := LOG_LEVEL_DEBUG }, true, none, none⟩ := by
  decide

/-- **C2** (amended): for every initialized state, `logger_output`
dispatches the message exactly when the numeric *level* is less than or
equal to the configured minimum level (`level ≤ minLevel`); otherwise it
returns success as a no-op with no transmitted bytes and no counter
change. -/
theorem level_filter_numeric (s : Syslog) (env : OutEnv) (level : LogLevel)
    (tag msg : Option (List Char)) (r : List Char)
    (hinit : s.initialized = true) (hudp : s.udp.isSome = true)
    (hmx : s.mutex = true) (htake : env.takeOk = true)
    (halloc : env.allocOk = true) (hpt : env.pbufTakeOk = true)
    (hsend : env.sendOk = true)
    (hfmt : syslog_format_msg s SYSLOG_MAX_MESSAGE_SIZE env.ts level tag msg = some r) :
    (s.min_level < level →
      logger_output s env level tag msg = ⟨s, true, none, none⟩) ∧
    (level ≤ s.min_level →
      logger_output s env level tag msg =
        ⟨{ s with send_count := (s.send_count + 1) % 2 ^ 32 }, true, some r, none⟩) := by
  constructor
  · intro hgt
    simp [logger_output, hinit, hudp, hmx, hgt]
  · intro hle
    simp [logger_output, hinit, hudp, hmx, htake, halloc, hpt, hsend,
      not_lt.mpr hle, hfmt]

/-- Witness for `level_filter_numeric`: a passing level is dispatched, a
rejected one is a silent no-op, at concrete states. -/
theorem level_filter_numeric_witness :
    logger_output { s_ready with min_level := LOG_LEVEL_ERROR } env_all_ok
        LOG_LEVEL_WARNING (some ['T']) (some ['m']) =
      ⟨{ s_ready with min_level := LOG_LEVEL_ERROR }, true, none, none⟩ ∧
    logger_output { s_ready with min_level := LOG_LEVEL_ERROR } env_all_ok
        LOG_LEVEL_ERROR (some ['T']) (some ['m']) =
      ⟨{ s_ready with min_level := LOG_LEVEL_ERROR, send_count := 1 }, true,
        some (syslog_format_msg { s_ready with min_level := LOG_LEVEL_ERROR }
          SYSLOG_MAX_MESSAGE_SIZE env_all_ok.ts LOG_LEVEL_ERROR (some ['T'])
          (some ['m'])).get!, none⟩ := by
  constructor
  · exact (level_filter_numeric { s_ready with min_level := LOG_LEVEL_ERROR }
      env_all_ok LOG_LEVEL_WARNING (some ['T']) (some ['m']) _
      (by decide) (by decide) (by decide) (by decide) (by decide) (by decide)
      (by decide) rfl).1 (by decide)
  · have h := (level_filter_numeric { s_ready with min_level := LOG_LEVEL_ERROR }
      env_all_ok LOG_LEVEL_ERROR (some ['T']) (some ['m']) _
      (by decide) (by decide) (by decide) (by decide) (by decide) (by decide)
      (by decide) rfl).2 (by decide)
    rw [h]
    decide

/-- **C5** (confirmed): the severity mapping is exactly the fixed table
none→0, error→3, warning→4, info→6, debug→7, verbose→7, unrecognized→6,
and every record produced by the formatter carries the priority
`facility*8 + severityOf(level)` in its `<PRI>` prefix. -/
theorem priority_fixed_table :
    (syslog_get_severity LOG_LEVEL_NONE = 0 ∧
     syslog_get_severity LOG_LEVEL_ERROR = 3 ∧
     syslog_get_severity LOG_LEVEL_WARNING = 4 ∧
     syslog_get_severity LOG_LEVEL_INFO = 6 ∧
     syslog_get_severity LOG_LEVEL_DEBUG = 7 ∧
     syslog_get_severity LOG_LEVEL_VERBOSE = 7) ∧
    (∀ level : LogLevel,
      ¬ (level = 0 ∨ level = 1 ∨ level = 2 ∨ level = 3 ∨ level = 4 ∨ level = 5) →
      syslog_get_severity level = 6) ∧
    (∀ (s : Syslog) (level : LogLevel),
      syslog_get_priority s level = s.facility * 8 + syslog_get_severity level) ∧
    (∀ (s : Syslog) (n : Nat) (ts : List Char) (level : LogLevel)
        (tag msg : Option (List Char)) (r : List Char),
      syslog_format_msg s n ts level tag msg = some r →
      ∃ rest, r = '<' :: (intDec (s.facility * 8 + syslog_get_severity level) ++ '>' :: rest)) := by
  refine ⟨by decide, ?_, fun s level => rfl, ?_⟩
  · intro level h
    push_neg at h
    obtain ⟨h0, h1, h2, h3, h4, h5⟩ := h
    simp [syslog_get_severity, h0, h1, h2, h3, h4, h5]
  · intro s n ts level tag msg r h
    simp only [syslog_format_msg] at h
    split_ifs at h
    simp only [Option.some.injEq] at h
    refine ⟨ts ++ ' ' :: s.hostname ++ ' ' :: s.app_name ++
      '[' :: tag.getD ("unknown".data) ++ ']' :: ':' :: ' ' :: msg.getD [], ?_⟩
    rw [← h]
    simp [syslog_get_priority]

/-- Witness for `priority_fixed_table`: an unrecognized level maps to
severity 6, and a concretely formatted record starts with the priority
of its level. -/
theorem priority_fixed_table_witness :
    syslog_get_severity 9 = 6 ∧
    ∃ rest, (syslog_format_msg s_ready SYSLOG_MAX_MESSAGE_SIZE env_all_ok.ts
        LOG_LEVEL_ERROR (some ['T']) (some ['m'])).get! =
      '<' :: (intDec (s_ready.facility * 8 + syslog_get_severity LOG_LEVEL_ERROR) ++
        '>' :: rest) := by
  constructor
  · exact priority_fixed_table.2.1 9 (by decide)
  · exact priority_fixed_table.2.2.2 s_ready SYSLOG_MAX_MESSAGE_SIZE env_all_ok.ts
      LOG_LEVEL_ERROR (some ['T']) (some ['m']) _ rfl

/-- **C7** (confirmed): a NULL or malformed endpoint string or an
out-of-range port makes `init_logger` return `false` without mutating
any state (server, port, initialized, transport handle, counters and
live handles all unchanged). -/
theorem configure_invalid_is_pure (w : World) (env : InitEnv) (ipstrNull : Bool)
    (port : Int)
    (hbad : ipstrNull = true ∨ port ≤ 0 ∨ port > 65535 ∨ env.parsed = none) :
    init_logger w env ipstrNull port = (w, false) := by
  unfold init_logger
  rcases hbad with h | h | h | h <;>
    by_cases hn : ipstrNull <;>
    by_cases hp : port ≤ 0 ∨ port > 65535 <;>
    simp_all

/-- Witness for `configure_invalid_is_pure`: a malformed address string
(`ipaddr_aton` failure) on an already-configured state changes
nothing. -/
theorem configure_invalid_is_pure_witness :
    init_logger ⟨s_ready, [1]⟩
      { parsed := none, mutexCreateOk := true, takeOk := true,
        newPcb := some 2, bindOk := true } false 514 = (⟨s_ready, [1]⟩, false) :=
  configure_invalid_is_pure ⟨s_ready, [1]⟩
    { parsed := none, mutexCreateOk := true, takeOk := true,
      newPcb := some 2, bindOk := true } false 514 (by decide)

/-- **C9** (confirmed): `logger_reset_stats` immediately followed by
`logger_get_stats` yields `(0,0)`; and an emit that reaches the
transport increments `send_count` by exactly 1 on success and
`failed_count` by exactly 1 on failure (alloc, copy or send), with no
double counting across the guarded re-check. -/
theorem stats_counting (s : Syslog) (env : OutEnv) (level : LogLevel)
    (tag msg : Option (List Char))
    (hinit : s.initialized = true) (hudp : s.udp.isSome = true)
    (hmx : s.mutex = true) (hlv : level ≤ s.min_level)
    (htake : env.takeOk = true)
    (hfmt : (syslog_format_msg s SYSLOG_MAX_MESSAGE_SIZE env.ts level tag msg).isSome) :
    logger_get_stats (logger_reset_stats s true) true true = some (0, 0) ∧
    (env.allocOk = true → env.pbufTakeOk = true → env.sendOk = true →
      (logger_output s env level tag msg).st.send_count = (s.send_count + 1) % 2 ^ 32 ∧
      (logger_output s env level tag msg).st.failed_count = s.failed_count ∧
      (logger_output s env level tag msg).ret = true) ∧
    (¬ (env.allocOk = true ∧ env.pbufTakeOk = true ∧ env.sendOk = true) →
      (logger_output s env level tag msg).st.failed_count = (s.failed_count + 1) % 2 ^ 32 ∧
      (logger_output s env level tag msg).st.send_count = s.send_count ∧
      (logger_output s env level tag msg).ret = false) := by
  obtain ⟨r, hr⟩ := Option.isSome_iff_exists.mp hfmt
  refine ⟨?_, ?_, ?_⟩
  · simp [logger_reset_stats, logger_get_stats, hmx]
  · intro ha hp hs
    simp [logger_output, hinit, hudp, hmx, htake, not_lt.mpr hlv, hr, ha, hp, hs]
  · intro hfail
    simp [logger_output, hinit, hudp, hmx, htake, not_lt.mpr hlv, hr, hfail]

/-- Witness for `stats_counting`: reset-then-get yields `(0,0)` and a
fully successful dispatch moves the counters `(0,0)` to `(1,0)` on the
concrete ready state. -/
theorem stats_counting_witness :
    logger_get_stats (logger_reset_stats s_ready true) true true = some (0, 0) ∧
    (logger_output s_ready env_all_ok LOG_LEVEL_ERROR (some ['T'])
        (some ['m'])).st.send_count = 1 ∧
    (logger_output s_ready env_all_ok LOG_LEVEL_ERROR (some ['T'])
        (some ['m'])).st.failed_count = 0 := by
  have h := stats_counting s_ready env_all_ok LOG_LEVEL_ERROR (some ['T']) (some ['m'])
    (by decide) (by decide) (by decide) (by decide) (by decide) (by decide)
  refine ⟨h.1, ?_, ?_⟩
  · rw [(h.2.1 rfl rfl rfl).1]
    decide
  · rw [(h.2.1 rfl rfl rfl).2.1]
    decide

/-! ### C6: transport-handle/initialized invariant -/

/-- The client-state invariant of the spec: the transport handle is
non-null iff `initialized` is true, and the live lwIP pcbs are exactly
the currently installed handle. -/
def WInv (w : World) : Prop :=
  w.s.udp.isSome = w.s.initialized ∧ w.live = w.s.udp.toList

lemma WInv_live_le_one (w : World) (hw : WInv w) : w.live.length ≤ 1 := by
  rw [hw.2]
  cases w.s.udp <;> simp

lemma init_cleanup_eq (w : World) (hw : WInv w) :
    init_cleanup w = ⟨{ w.s with udp := none, initialized := false }, []⟩ := by
  obtain ⟨h1, h2⟩ := hw
  unfold init_cleanup
  by_cases hi : w.s.initialized
  · cases hu : w.s.udp with
    | none => rw [hu] at h1; rw [hi] at h1; simp at h1
    | some h =>
      rw [hu] at h2
      simp [hi, hu, h2]
  · have hi' : w.s.initialized = false := by simpa using hi
    have hu : w.s.udp = none := by
      rw [hi'] at h1
      simpa using h1
    rw [hu] at h2
    simp at h2
    have hs : { w.s with udp := none, initialized := false } = w.s := by
      rw [← hu, ← hi']
    simp only [hi, if_false, ite_false, Bool.false_eq_true]
    rw [hs, ← h2]

lemma logger_output_preserves_handle (s : Syslog) (env : OutEnv) (lvl : LogLevel)
    (tag msg : Option (List Char)) :
    (logger_output s env lvl tag msg).st.udp = s.udp ∧
    (logger_output s env lvl tag msg).st.initialized = s.initialized := by
  unfold logger_output
  cases hfm : syslog_format_msg s SYSLOG_MAX_MESSAGE_SIZE env.ts lvl tag msg <;>
    split_ifs <;> simp [hfm]

lemma init_main_WInv (w : World) (env : InitEnv) (server : Nat) (port : Int)
    (hw : WInv w) : WInv (init_main w env server port).1 := by
  unfold init_main
  rw [init_cleanup_eq w hw]
  cases hnb : env.newPcb with
  | none => simp [init_create, hnb, WInv]
  | some hh => by_cases hb : env.bindOk <;> simp [init_create, hnb, hb, WInv]

lemma init_main_fail (w : World) (env : InitEnv) (server : Nat) (port : Int)
    (hw : WInv w) (hfail : env.newPcb = none ∨ env.bindOk = false) :
    (init_main w env server port).2 = false ∧
    (init_main w env server port).1.s.initialized = false ∧
    (init_main w env server port).1.s.udp = none ∧
    (init_main w env server port).1.live = [] := by
  unfold init_main
  rw [init_cleanup_eq w hw]
  rcases hfail with h | h
  · simp [init_create, h]
  · cases hnb : env.newPcb with
    | none => simp [init_create, hnb]
    | some hh => simp [init_create, hnb, h]

lemma init_logger_WInv (w : World) (env : InitEnv) (ipstrNull : Bool) (port : Int)
    (hw : WInv w) : WInv (init_logger w env ipstrNull port).1 := by
  have hw₀ : WInv ⟨{ w.s with mutex := true }, w.live⟩ := ⟨hw.1, hw.2⟩
  unfold init_logger
  by_cases hn : ipstrNull = true
  · simpa [hn] using hw
  rw [if_neg hn]
  by_cases hpr : port ≤ 0 ∨ port > 65535
  · simpa [hpr] using hw
  rw [if_neg hpr]
  cases hp : env.parsed with
  | none => exact hw
  | some server =>
    by_cases hm : ¬ w.s.mutex = true ∧ ¬ env.mutexCreateOk = true
    · simpa [hm] using hw
    by_cases ht : ¬ env.takeOk = true
    · simp only [if_neg hm, if_pos ht]
      exact hw₀
    · simp only [if_neg hm, if_neg ht]
      exact init_main_WInv _ env server port hw₀

lemma init_logger_fail_spec (w : World) (env : InitEnv) (ipstrNull : Bool) (port : Int)
    (hw : WInv w)
    (hn : ipstrNull = false) (hpr : ¬ (port ≤ 0 ∨ port > 65535))
    (hp : env.parsed.isSome) (hm : w.s.mutex = true ∨ env.mutexCreateOk = true)
    (ht : env.takeOk = true) (hfail : env.newPcb = none ∨ env.bindOk = false) :
    (init_logger w env ipstrNull port).2 = false ∧
    (init_logger w env ipstrNull port).1.s.initialized = false ∧
    (init_logger w env ipstrNull port).1.s.udp = none ∧
    (init_logger w env ipstrNull port).1.live = [] := by
  obtain ⟨server, hps⟩ := Option.isSome_iff_exists.mp hp
  have hw₀ : WInv ⟨{ w.s with mutex := true }, w.live⟩ := ⟨hw.1, hw.2⟩
  have hm' : ¬ (¬ w.s.mutex = true ∧ ¬ env.mutexCreateOk = true) := by
    rcases hm with h | h <;> simp [h]
  have ht' : ¬ ¬ env.takeOk = true := by simp [ht]
  unfold init_logger
  rw [if_neg (by simp [hn] : ¬ ipstrNull = true), if_neg hpr]
  rw [show env.parsed = some server from hps]
  simp only [if_neg hm', if_neg ht']
  exact init_main_fail _ env server port hw₀ hfail

/-- **C6** (confirmed): the invariant "transport handle non-null iff
initialized" together with "the live pcbs are exactly the installed
handle" is preserved by `init_logger` under every outcome of the
external calls; hence after any configure call at most one live handle
exists; on create/bind failure the call reports failure, leaves
`initialized = false` and releases the old handle (no live pcb at all);
and `logger_output` never writes the handle or the flag, so the
invariant holds at every point where the guard is not held. -/
theorem transport_handle_invariant (w : World) (env : InitEnv) (ipstrNull : Bool)
    (port : Int) (s' : Syslog) (oenv : OutEnv) (lvl : LogLevel)
    (tag msg : Option (List Char)) (hw : WInv w) :
    WInv (init_logger w env ipstrNull port).1 ∧
    (init_logger w env ipstrNull port).1.live.length ≤ 1 ∧
    (ipstrNull = false → ¬ (port ≤ 0 ∨ port > 65535) → env.parsed.isSome →
      w.s.mutex = true ∨ env.mutexCreateOk = true → env.takeOk = true →
      env.newPcb = none ∨ env.bindOk = false →
      (init_logger w env ipstrNull port).2 = false ∧
      (init_logger w env ipstrNull port).1.s.initialized = false ∧
      (init_logger w env ipstrNull port).1.s.udp = none ∧
      (init_logger w env ipstrNull port).1.live = []) ∧
    (logger_output s' oenv lvl tag msg).st.udp = s'.udp ∧
    (logger_output s' oenv lvl tag msg).st.initialized = s'.initialized := by
  refine ⟨init_logger_WInv w env ipstrNull port hw,
    WInv_live_le_one _ (init_logger_WInv w env ipstrNull port hw),
    fun hn hpr hp hm ht hfail => init_logger_fail_spec w env ipstrNull port hw hn hpr hp hm ht hfail,
    logger_output_preserves_handle s' oenv lvl tag msg⟩

/-- Witness for `transport_handle_invariant`: re-configuring the ready
state (one live handle) with a fresh pcb that fails to bind leaves no
live handle and `initialized = false`. -/
theorem transport_handle_invariant_witness :
    WInv (init_logger ⟨s_ready, [1]⟩
      { parsed := some 7, mutexCreateOk := true, takeOk := true,
        newPcb := some 2, bindOk := false } false 514).1 ∧
    (init_logger ⟨s_ready, [1]⟩
      { parsed := some 7, mutexCreateOk := true, takeOk := true,
        newPcb := some 2, bindOk := false } false 514).1.s.initialized = false ∧
    (init_logger ⟨s_ready, [1]⟩
      { parsed := some 7, mutexCreateOk := true, takeOk := true,
        newPcb := some 2, bindOk := false } false 514).1.live = [] := by
  have h := transport_handle_invariant ⟨s_ready, [1]⟩
    { parsed := some 7, mutexCreateOk := true, takeOk := true,
      newPcb := some 2, bindOk := false } false 514 s_ready env_all_ok
    LOG_LEVEL_ERROR (some ['T']) (some ['m']) (by constructor <;> decide)
  exact ⟨h.1, (h.2.2.1 rfl (by decide) (by decide) (Or.inl (by decide)) rfl
    (Or.inr rfl)).2.1, (h.2.2.1 rfl (by decide) (by decide) (Or.inl (by decide)) rfl
    (Or.inr rfl)).2.2.2⟩

/-! ### C10, C3, C8: accumulator behaviour -/

/-- **C10** (confirmed): every `logger_printf_line` call renders into a
256-byte `tmp` buffer first, so at most 255 characters from a single call
ever reach the line accumulator; longer rendered text is silently
truncated there, before any line splitting or buffering. -/
theorem printf_line_truncates (lvl : LogLevel) (tagO : Option (List Char))
    (rendered : List Char) (st : LineState) :
    logger_printf_line lvl tagO rendered st =
      logger_printf_line lvl tagO (rendered.take 255) st ∧
    (rendered.take 255).length ≤ 255 := by
  constructor
  · simp [logger_printf_line, List.take_take]
  · simp

/-- **C3** (corrected), counterexample: a single `logger_printf_line`
call whose rendered message (1100 bytes) exceeds the 1023-byte usable
line-buffer capacity and has no terminator does *not* produce multiple
records concatenating back to the original text: it produces no record
at all, because the message is truncated to 255 bytes by the `tmp`
rendering buffer and simply left pending. -/
theorem exhaustion_slicing_cex :
    (List.replicate 1100 'a').length > SYSLOG_MAX_MESSAGE_SIZE - 1 ∧
    (logger_printf_line LOG_LEVEL_INFO (some ['T']) (List.replicate 1100 'a')
      line_state_init).1 = [] ∧
    (logger_printf_line LOG_LEVEL_INFO (some ['T']) (List.replicate 1100 'a')
      line_state_init).2.buf = List.replicate 255 'a' := by
  have ht : (List.replicate 1100 'a').take 255 = List.replicate 255 'a' := by
    rw [List.take_replicate]
    norm_num
  refine ⟨by simp [SYSLOG_MAX_MESSAGE_SIZE], ?_, ?_⟩ <;>
  · simp only [logger_printf_line, runLine, ht]
    decide

lemma attrFlush_neg (lvl : LogLevel) (tagO : Option (List Char)) (st : LineState)
    (hc : ¬ (st.buf ≠ [] ∧
      ((tagO.isSome ∧ st.cur_tag ≠ [] ∧
          st.cur_tag.take TAG_CAP ≠ (tagO.getD []).take TAG_CAP)
        ∨ lvl ≠ st.cur_level))) :
    attrFlush lvl tagO st = ([], st) := by
  simp only [attrFlush, if_neg hc]

lemma attrFlush_pos (lvl : LogLevel) (tagO : Option (List Char)) (st : LineState)
    (hc : st.buf ≠ [] ∧
      ((tagO.isSome ∧ st.cur_tag ≠ [] ∧
          st.cur_tag.take TAG_CAP ≠ (tagO.getD []).take TAG_CAP)
        ∨ lvl ≠ st.cur_level))
    (htag : st.cur_tag ≠ []) :
    attrFlush lvl tagO st =
      ([⟨st.cur_level, st.cur_tag, st.buf⟩],
       { st with buf := ([] : List Char), cur_tag := ([] : List Char) }) := by
  simp only [attrFlush, if_pos hc, if_pos htag]

/-- When the chunk fits in the remaining space, the capacity stage is the
identity. -/
lemma capacityFlush_fits (lvl : LogLevel) (tagO : Option (List Char))
    (chunk : List Char) (st : LineState)
    (hfit : chunk.length ≤ SYSLOG_MAX_MESSAGE_SIZE - 1 - st.buf.length) :
    capacityFlush lvl tagO chunk st = ([], st, chunk) := by
  simp only [capacityFlush, if_neg (by omega : ¬ chunk.length > SYSLOG_MAX_MESSAGE_SIZE - 1 - st.buf.length)]

/-- A single unterminated input that fits the truncation bound is simply
appended: no record is emitted, attributes are recorded. -/
lemma lineStep_noterm (lvl : LogLevel) (tagO : Option (List Char)) (p : List Char)
    (st : LineState)
    (hterm : ∀ c ∈ p, notTerm c = true)
    (hnoflush : ¬ (st.buf ≠ [] ∧
      ((tagO.isSome ∧ st.cur_tag ≠ [] ∧
          st.cur_tag.take TAG_CAP ≠ (tagO.getD []).take TAG_CAP)
        ∨ lvl ≠ st.cur_level)))
    (hfit : p.length ≤ SYSLOG_MAX_MESSAGE_SIZE - 1 - st.buf.length) :
    lineStep lvl tagO p st =
      ([], { setAttrs lvl tagO st with
              buf := (setAttrs lvl tagO st).buf ++ p }, []) := by
  have htw : p.takeWhile notTerm = p := List.takeWhile_eq_self_iff.mpr hterm
  have hbuf : (setAttrs lvl tagO st).buf = st.buf := by
    simp only [setAttrs]
    split_ifs with h <;> simp [h]
  simp only [lineStep, htw, List.drop_length, attrFlush_neg lvl tagO st hnoflush,
    capacityFlush_fits lvl tagO p _ (by rw [hbuf]; exact hfit)]
  rfl

/-- **C3** (amended): a single `logger_printf_line` call is truncated to
255 bytes by the `tmp` rendering buffer, which always fits in the
1023-byte usable line buffer, so the full-capacity slicing path is
unreachable from a single call: from a fresh accumulator, a call with no
line terminator produces *no* records and leaves the (truncated) text
pending. -/
theorem exhaustion_no_slicing_single_call (lvl : LogLevel)
    (tagO : Option (List Char)) (rendered : List Char)
    (hne : rendered ≠ []) (hterm : ∀ c ∈ rendered, notTerm c = true) :
    (logger_printf_line lvl tagO rendered line_state_init).1 = [] ∧
    (logger_printf_line lvl tagO rendered line_state_init).2.buf = rendered.take 255 ∧
    (rendered.take 255).length ≤ SYSLOG_MAX_MESSAGE_SIZE - 1 := by
  have htne : rendered.take 255 ≠ [] := by simp [List.take_eq_nil_iff, hne]
  obtain ⟨c, cs, hcc⟩ := List.exists_cons_of_ne_nil htne
  have hterm' : ∀ x ∈ rendered.take 255, notTerm x = true := fun x hx =>
    hterm x (List.take_subset 255 rendered hx)
  have hlen : (rendered.take 255).length ≤ 255 := by simp
  have hstep := lineStep_noterm lvl tagO (rendered.take 255) line_state_init
    hterm' (by simp [line_state_init])
    (by simp only [line_state_init, List.length_nil, SYSLOG_MAX_MESSAGE_SIZE]; omega)
  rw [hcc] at hstep
  simp only [logger_printf_line]
  rw [hcc, runLine_cons, hstep]
  simp only [consStep, runLine_nil, List.append_nil, List.nil_append]
  refine ⟨by trivial, ?_, ?_⟩
  · rw [← hcc]
    simp [setAttrs, line_state_init]
  · have h2 : (c :: cs).length ≤ 255 := hcc ▸ hlen
    simp only [List.length_cons, SYSLOG_MAX_MESSAGE_SIZE] at h2 ⊢
    omega

/-- Witness for `exhaustion_no_slicing_single_call` on a 1100-byte
message. -/
theorem exhaustion_no_slicing_single_call_witness :
    (logger_printf_line LOG_LEVEL_DEBUG (some ['U']) (List.replicate 1100 'b')
      line_state_init).1 = [] ∧
    (logger_printf_line LOG_LEVEL_DEBUG (some ['U']) (List.replicate 1100 'b')
      line_state_init).2.buf = (List.replicate 1100 'b').take 255 := by
  have h := exhaustion_no_slicing_single_call LOG_LEVEL_DEBUG (some ['U'])
    (List.replicate 1100 'b') (by simp)
    (fun c hc => by rw [List.eq_of_mem_replicate hc]; decide)
  exact ⟨h.1, h.2.1⟩

/-- **C8** (corrected), counterexample: with a pending buffer accumulated
under the *empty* tag (a legal tag value) and level INFO, a new call with
the different tag `"B"` and the same level does *not* flush the pending
buffer first as the claim demands — the tag-difference test is skipped
when the stored tag is empty (`cur_tag[0] == 0`), so the new chunk is
appended to the old line and no record is emitted. -/
theorem attr_change_flush_cex :
    (logger_printf_line LOG_LEVEL_INFO (some []) ("partial".data)
        line_state_init).2.buf = "partial".data ∧
    (logger_printf_line LOG_LEVEL_INFO (some []) ("partial".data)
        line_state_init).2.cur_tag = [] ∧
    (logger_printf_line LOG_LEVEL_INFO (some ['B']) ("x".data)
        (logger_printf_line LOG_LEVEL_INFO (some []) ("partial".data)
          line_state_init).2).1 = [] ∧
    (logger_printf_line LOG_LEVEL_INFO (some ['B']) ("x".data)
        (logger_printf_line LOG_LEVEL_INFO (some []) ("partial".data)
          line_state_init).2).2.buf = "partialx".data := by
  decide

lemma head?_append_cons {α : Type} {l : List α} {a : α} (h : l.head? = some a)
    (ys : List α) : ∃ tl, l ++ ys = a :: tl := by
  cases l with
  | nil => simp at h
  | cons x xs =>
    simp only [List.head?_cons, Option.some.injEq] at h
    exact ⟨xs ++ ys, by simp [h]⟩

lemma lineStep_records_head (lvl : LogLevel) (tagO : Option (List Char))
    (p : List Char) (st : LineState)
    (hc : st.buf ≠ [] ∧
      ((tagO.isSome ∧ st.cur_tag ≠ [] ∧
          st.cur_tag.take TAG_CAP ≠ (tagO.getD []).take TAG_CAP)
        ∨ lvl ≠ st.cur_level))
    (htag : st.cur_tag ≠ []) :
    (lineStep lvl tagO p st).1.head? = some ⟨st.cur_level, st.cur_tag, st.buf⟩ := by
  simp only [lineStep, attrFlush_pos lvl tagO st hc htag]
  cases p.drop (p.takeWhile notTerm).length with
  | nil => simp
  | cons c cs => simp

/-- **C8** (amended): whenever the pending buffer is non-empty, the
stored pending tag is non-empty, the new call's tag is non-NULL, its text
is non-empty, and either the stored tag differs from the new tag (over
the first 48 characters, the stored tag itself being truncated to 47) or
the level differs, the pending buffer is flushed first — the first record
of the call carries the pending level, pending tag and pending bytes,
before any of the new chunk is appended.  (A NULL incoming tag or an
empty stored tag suppresses the tag-difference flush; only a level
change forces it then — see the counterexample.) -/
theorem attr_change_flush_amended (lvl : LogLevel) (t rendered : List Char)
    (st : LineState)
    (hbuf : st.buf ≠ []) (htag : st.cur_tag ≠ []) (hne : rendered ≠ [])
    (hdiff : st.cur_tag.take TAG_CAP ≠ t.take TAG_CAP ∨ lvl ≠ st.cur_level) :
    ∃ tl, (logger_printf_line lvl (some t) rendered st).1 =
      ⟨st.cur_level, st.cur_tag, st.buf⟩ :: tl := by
  have htne : rendered.take 255 ≠ [] := by simp [List.take_eq_nil_iff, hne]
  obtain ⟨c, cs, hcc⟩ := List.exists_cons_of_ne_nil htne
  have hc : st.buf ≠ [] ∧
      (((some t).isSome ∧ st.cur_tag ≠ [] ∧
          st.cur_tag.take TAG_CAP ≠ ((some t).getD []).take TAG_CAP)
        ∨ lvl ≠ st.cur_level) := by
    refine ⟨hbuf, ?_⟩
    rcases hdiff with h | h
    · exact Or.inl ⟨rfl, htag, h⟩
    · exact Or.inr h
  obtain ⟨tl, htl⟩ := head?_append_cons
    (lineStep_records_head lvl (some t) (c :: cs) st hc htag)
    (runLine lvl (some t) (lineStep lvl (some t) (c :: cs) st).2.2
      (lineStep lvl (some t) (c :: cs) st).2.1).1
  refine ⟨tl, ?_⟩
  simp only [logger_printf_line]
  rw [hcc, runLine_cons]
  simpa [consStep] using htl

/-- Witness for `attr_change_flush_amended`: the spec's own example —
`logLine(INFO,"A","partial")` has left `"partial"` pending under
`(INFO, "A")`; the following `logLine(WARNING,"B","x")` flushes it first
as a record tagged `(INFO, "A")`. -/
theorem attr_change_flush_amended_witness :
    ∃ tl, (logger_printf_line LOG_LEVEL_WARNING (some ['B']) ("x".data)
      ⟨"partial".data, LOG_LEVEL_INFO, ['A']⟩).1 =
      ⟨LOG_LEVEL_INFO, ['A'], "partial".data⟩ :: tl :=
  attr_change_flush_amended LOG_LEVEL_WARNING ['B'] ("x".data)
    ⟨"partial".data, LOG_LEVEL_INFO, ['A']⟩ (by decide) (by decide) (by decide)
    (Or.inl (by decide))

/-! ### C4: chunk-boundary behaviour of the accumulator -/

lemma takeWhile_append_all {p : Char → Bool} {a : List Char} (b : List Char)
    (h : ∀ c ∈ a, p c = true) : (a ++ b).takeWhile p = a ++ b.takeWhile p := by
  induction a with
  | nil => simp
  | cons x xs ih =>
    have hx : p x = true := h x (List.mem_cons_self x xs)
    simp [List.takeWhile_cons, hx, ih (fun c hc => h c (List.mem_cons_of_mem x hc))]

lemma takeWhile_append_ne {p : Char → Bool} {a : List Char} (b : List Char)
    (h : a.takeWhile p ≠ a) : (a ++ b).takeWhile p = a.takeWhile p := by
  induction a with
  | nil => simp at h
  | cons x xs ih =>
    by_cases hx : p x = true
    · have hxs : xs.takeWhile p ≠ xs := by
        intro hh
        exact h (by simp [List.takeWhile_cons, hx, hh])
      simp [List.takeWhile_cons, hx, ih hxs]
    · simp [List.takeWhile_cons, hx]

lemma termSkip_cons_append (cT x : Char) (xs b : List Char) :
    termSkip (cT :: ((x :: xs) ++ b)) = termSkip (cT :: x :: xs) ++ b := by
  simp only [termSkip, List.cons_append, List.head?_cons]
  split_ifs <;> simp

lemma termSkip_single_append (cT : Char) (b : List Char)
    (g1 : ¬ (cT = '\r' ∧ b.head? = some '\n'))
    (g2 : ¬ (cT = '\n' ∧ b.head? = some '\r')) :
    termSkip (cT :: b) = b := by
  simp only [termSkip]
  rw [if_neg g1, if_neg g2]

lemma termSkip_suffix (rest : List Char) : termSkip rest <:+ rest := by
  cases rest with
  | nil => simp [termSkip]
  | cons c cs =>
    simp only [termSkip]
    split_ifs
    · exact (List.tail_suffix cs).trans (List.suffix_cons c cs)
    · exact (List.tail_suffix cs).trans (List.suffix_cons c cs)
    · exact List.suffix_cons c cs

lemma getLast?_of_suffix {l' l : List Char} (h : l' <:+ l) (hne : l' ≠ []) :
    l.getLast? = l'.getLast? := by
  obtain ⟨pre, rfl⟩ := h
  exact List.getLast?_append_of_ne_nil pre hne

lemma StOk_noflush (lvl : LogLevel) (t : List Char) (st : LineState)
    (h : StOk lvl t st) :
    ¬ (st.buf ≠ [] ∧
      (((some t : Option (List Char)).isSome ∧ st.cur_tag ≠ [] ∧
          st.cur_tag.take TAG_CAP ≠ ((some t : Option (List Char)).getD []).take TAG_CAP)
        ∨ lvl ≠ st.cur_level)) := by
  rcases h with h | ⟨h1, h2⟩
  · exact fun hc => hc.1 h
  · rintro ⟨hb, hor⟩
    rcases hor with ⟨_, _, hne⟩ | hne
    · exact hne (by rw [h1]; rfl)
    · exact hne h2.symm

lemma setAttrs_StOk (lvl : LogLevel) (t : List Char) (st : LineState)
    (h : StOk lvl t st) (htlen : t.length ≤ TAG_CAP - 1) :
    setAttrs lvl (some t) st = ⟨st.buf, lvl, t⟩ := by
  by_cases hb : st.buf = []
  · simp only [setAttrs, hb, if_pos rfl]
    simp [effTag, List.take_of_length_le htlen, hb]
  · rcases h with h | ⟨h1, h2⟩
    · exact absurd h hb
    · simp only [setAttrs, if_neg hb]
      rw [← h1, ← h2]

lemma lineStep_noterm_eq (lvl : LogLevel) (t : List Char) (st : LineState)
    (p : List Char) (hst : StOk lvl t st) (htlen : t.length ≤ TAG_CAP - 1)
    (hrest : p.drop (p.takeWhile notTerm).length = [])
    (hfit : (p.takeWhile notTerm).length ≤ SYSLOG_MAX_MESSAGE_SIZE - 1 - st.buf.length) :
    lineStep lvl (some t) p st = ([], ⟨st.buf ++ p.takeWhile notTerm, lvl, t⟩, []) := by
  simp only [lineStep, hrest, attrFlush_neg _ _ _ (StOk_noflush lvl t st hst),
    setAttrs_StOk lvl t st hst htlen,
    capacityFlush_fits lvl (some t) (p.takeWhile notTerm) ⟨st.buf, lvl, t⟩ hfit]
  rfl

lemma lineStep_term_eq (lvl : LogLevel) (t : List Char) (st : LineState)
    (p : List Char) (cT : Char) (csT : List Char)
    (hst : StOk lvl t st) (htlen : t.length ≤ TAG_CAP - 1)
    (hrest : p.drop (p.takeWhile notTerm).length = cT :: csT)
    (hfit : (p.takeWhile notTerm).length ≤ SYSLOG_MAX_MESSAGE_SIZE - 1 - st.buf.length) :
    lineStep lvl (some t) p st =
      ([⟨lvl, t, st.buf ++ p.takeWhile notTerm⟩], ⟨[], lvl, []⟩,
        termSkip (cT :: csT)) := by
  simp only [lineStep, hrest, attrFlush_neg _ _ _ (StOk_noflush lvl t st hst),
    setAttrs_StOk lvl t st hst htlen,
    capacityFlush_fits lvl (some t) (p.takeWhile notTerm) ⟨st.buf, lvl, t⟩ hfit]
  rfl

lemma runLine_ne_nil (lvl : LogLevel) (tagO : Option (List Char)) (p : List Char)
    (st : LineState) (hp : p ≠ []) :
    runLine lvl tagO p st =
      consStep (lineStep lvl tagO p st).1
        (runLine lvl tagO (lineStep lvl tagO p st).2.2
          (lineStep lvl tagO p st).2.1) := by
  obtain ⟨c, cs, rfl⟩ := List.exists_cons_of_ne_nil hp
  exact runLine_cons lvl tagO c cs st

/-- One iteration over `a ++ b` where all of `a` is terminator-free is the
same as one iteration over `b` with `a` already appended to the pending
buffer. -/
lemma lineStep_append_all (lvl : LogLevel) (t : List Char) (a b : List Char)
    (st : LineState) (hst : StOk lvl t st) (htlen : t.length ≤ TAG_CAP - 1)
    (hall : ∀ x ∈ a, notTerm x = true)
    (hcap : st.buf.length + a.length + b.length ≤ SYSLOG_MAX_MESSAGE_SIZE - 1) :
    lineStep lvl (some t) (a ++ b) st =
      lineStep lvl (some t) b ⟨st.buf ++ a, lvl, t⟩ := by
  have htwc : (a ++ b).takeWhile notTerm = a ++ b.takeWhile notTerm :=
    takeWhile_append_all b hall
  have htwb_le : (b.takeWhile notTerm).length ≤ b.length :=
    (List.takeWhile_prefix _).length_le
  have hdropc : (a ++ b).drop ((a ++ b).takeWhile notTerm).length =
      b.drop (b.takeWhile notTerm).length := by
    rw [htwc, List.length_append, ← List.drop_drop, List.drop_left]
  have hfitC : ((a ++ b).takeWhile notTerm).length ≤
      SYSLOG_MAX_MESSAGE_SIZE - 1 - st.buf.length := by
    rw [htwc, List.length_append]
    simp only [SYSLOG_MAX_MESSAGE_SIZE] at hcap ⊢
    omega
  have hfitB : (b.takeWhile notTerm).length ≤
      SYSLOG_MAX_MESSAGE_SIZE - 1 - (⟨st.buf ++ a, lvl, t⟩ : LineState).buf.length := by
    simp only [List.length_append]
    simp only [SYSLOG_MAX_MESSAGE_SIZE] at hcap ⊢
    omega
  cases hrb : b.drop (b.takeWhile notTerm).length with
  | nil =>
    rw [lineStep_noterm_eq lvl t st (a ++ b) hst htlen (hdropc.trans hrb) hfitC,
      lineStep_noterm_eq lvl t ⟨st.buf ++ a, lvl, t⟩ b (Or.inr ⟨rfl, rfl⟩) htlen hrb hfitB,
      htwc]
    simp [List.append_assoc]
  | cons e es =>
    rw [lineStep_term_eq lvl t st (a ++ b) e es hst htlen (hdropc.trans hrb) hfitC,
      lineStep_term_eq lvl t ⟨st.buf ++ a, lvl, t⟩ b e es (Or.inr ⟨rfl, rfl⟩) htlen hrb hfitB,
      htwc]
    simp [List.append_assoc]

/-- Chunk-boundary composition: processing `a ++ b` in one call equals
processing `a` then `b`, provided the split does not separate a
two-character terminator pair, the tag fits the 47-byte tag store, the
total text fits the line buffer, and the pending attributes (if any)
match the calls. -/
theorem runLine_append_aux (lvl : LogLevel) (t : List Char)
    (htlen : t.length ≤ TAG_CAP - 1) :
    ∀ (n : Nat) (a b : List Char) (st : LineState),
      a.length ≤ n →
      st.buf.length + a.length + b.length ≤ SYSLOG_MAX_MESSAGE_SIZE - 1 →
      StOk lvl t st →
      ¬ (a.getLast? = some '\r' ∧ b.head? = some '\n') →
      ¬ (a.getLast? = some '\n' ∧ b.head? = some '\r') →
      runLine lvl (some t) (a ++ b) st =
        consStep (runLine lvl (some t) a st).1
          (runLine lvl (some t) b (runLine lvl (some t) a st).2) := by
  intro n
  induction n with
  | zero =>
    intro a b st ha _ _ _ _
    have haa : a = [] := List.length_eq_zero.mp (Nat.le_antisymm ha (Nat.zero_le _))
    subst haa
    simp [runLine_nil, consStep]
  | succ n ih =>
    intro a b st ha hcap hst hp1 hp2
    by_cases hA : a = []
    · subst hA
      simp [runLine_nil, consStep]
    by_cases hB : b = []
    · subst hB
      simp [runLine_nil, consStep]
    have hab : a ++ b ≠ [] := by simp [hA]
    cases hrest : a.drop (a.takeWhile notTerm).length with
    | nil =>
      -- no terminator inside a: the whole of a is appended, b continues
      have htwa : a.takeWhile notTerm = a := by
        have h1 := congrArg List.length hrest
        simp only [List.length_drop, List.length_nil] at h1
        have h2 := (List.takeWhile_prefix (l := a) notTerm).length_le
        exact (List.takeWhile_prefix notTerm).eq_of_length (by omega)
      have hall : ∀ x ∈ a, notTerm x = true := List.takeWhile_eq_self_iff.mp htwa
      have hstepEq := lineStep_append_all lvl t a b st hst htlen hall hcap
      have hA1 : runLine lvl (some t) a st = ([], ⟨st.buf ++ a, lvl, t⟩) := by
        rw [runLine_ne_nil lvl (some t) a st hA,
          lineStep_noterm_eq lvl t st a hst htlen hrest
            (by rw [htwa]; simp only [SYSLOG_MAX_MESSAGE_SIZE] at hcap ⊢; omega),
          htwa]
        simp [consStep, runLine_nil]
      rw [runLine_ne_nil lvl (some t) (a ++ b) st hab, hstepEq, hA1,
        ← runLine_ne_nil lvl (some t) b ⟨st.buf ++ a, lvl, t⟩ hB]
      simp [consStep]
    | cons cT csT =>
      -- a contains a terminator: take one full iteration, then induct
      have hlt : (a.takeWhile notTerm).length < a.length := by
        have h1 := congrArg List.length hrest
        simp only [List.length_drop, List.length_cons] at h1
        have h2 := (List.takeWhile_prefix (l := a) notTerm).length_le
        omega
      have htne : a.takeWhile notTerm ≠ a := by
        intro h
        rw [h] at hlt
        omega
      have htwc := takeWhile_append_ne b htne
      have hfitA : (a.takeWhile notTerm).length ≤
          SYSLOG_MAX_MESSAGE_SIZE - 1 - st.buf.length := by
        simp only [SYSLOG_MAX_MESSAGE_SIZE] at hcap ⊢
        omega
      have hstepA := lineStep_term_eq lvl t st a cT csT hst htlen hrest hfitA
      have hdropc : (a ++ b).drop ((a ++ b).takeWhile notTerm).length =
          cT :: (csT ++ b) := by
        rw [htwc, List.drop_append_of_le_length (Nat.le_of_lt hlt), hrest]
        rfl
      have hstepC := lineStep_term_eq lvl t st (a ++ b) cT (csT ++ b) hst htlen
        hdropc (by rw [htwc]; exact hfitA)
      rw [htwc] at hstepC
      have hsufRest : (cT :: csT) <:+ a := by
        rw [← hrest]
        exact List.drop_suffix _ a
      have hsufSkip : termSkip (cT :: csT) <:+ a :=
        (termSkip_suffix (cT :: csT)).trans hsufRest
      have hts : termSkip (cT :: (csT ++ b)) = termSkip (cT :: csT) ++ b := by
        cases csT with
        | cons x xs => exact termSkip_cons_append cT x xs b
        | nil =>
          have hlast : a.getLast? = some cT := by
            rw [getLast?_of_suffix hsufRest (by simp)]
            simp
          have e1 : ¬ (cT = '\r' ∧ b.head? = some '\n') := by
            rintro ⟨hz, hy⟩
            exact hp1 ⟨by rw [hlast, hz], hy⟩
          have e2 : ¬ (cT = '\n' ∧ b.head? = some '\r') := by
            rintro ⟨hz, hy⟩
            exact hp2 ⟨by rw [hlast, hz], hy⟩
          simp only [List.nil_append]
          rw [termSkip_single_append cT b e1 e2]
          simp [termSkip]
      have hlen1 : (termSkip (cT :: csT)).length ≤ n := by
        have g1 := termSkip_length_le cT csT
        have g2 := congrArg List.length hrest
        simp only [List.length_drop, List.length_cons] at g2
        omega
      have hcap1 : (⟨[], lvl, []⟩ : LineState).buf.length +
          (termSkip (cT :: csT)).length + b.length ≤ SYSLOG_MAX_MESSAGE_SIZE - 1 := by
        have g1 := termSkip_length_le cT csT
        have g2 := congrArg List.length hrest
        simp only [List.length_drop, List.length_cons] at g2
        simp only [List.length_nil, SYSLOG_MAX_MESSAGE_SIZE] at hcap ⊢
        omega
      have hp1' : ¬ ((termSkip (cT :: csT)).getLast? = some '\r' ∧
          b.head? = some '\n') := by
        rintro ⟨hx, hy⟩
        have hne : termSkip (cT :: csT) ≠ [] := by
          intro hz
          rw [hz] at hx
          simp at hx
        exact hp1 ⟨by rw [getLast?_of_suffix hsufSkip hne]; exact hx, hy⟩
      have hp2' : ¬ ((termSkip (cT :: csT)).getLast? = some '\n' ∧
          b.head? = some '\r') := by
        rintro ⟨hx, hy⟩
        have hne : termSkip (cT :: csT) ≠ [] := by
          intro hz
          rw [hz] at hx
          simp at hx
        exact hp2 ⟨by rw [getLast?_of_suffix hsufSkip hne]; exact hx, hy⟩
      have hih := ih (termSkip (cT :: csT)) b ⟨[], lvl, []⟩ hlen1 hcap1
        (Or.inl rfl) hp1' hp2'
      rw [runLine_ne_nil lvl (some t) (a ++ b) st hab, hstepC,
        runLine_ne_nil lvl (some t) a st hA, hstepA]
      simp only [consStep]
      rw [hts, hih]
      simp [consStep, List.append_assoc]

/-- **C4** (corrected), counterexample: a `\r\n` terminator pair split
across two `logger_printf_line` calls is *not* treated as one terminator:
the unsplit text `"ab\r\n"` yields one record `"ab"`, while `"ab\r"`
followed by `"\n"` yields that record plus an extra empty record — a
difference the claim's buffer-exhaustion exception does not cover. -/
theorem chunk_boundary_cex :
    (logger_printf_line LOG_LEVEL_INFO (some ['T']) ("ab\r\n".data)
      line_state_init).1 = [⟨LOG_LEVEL_INFO, ['T'], "ab".data⟩] ∧
    (logger_printf_line LOG_LEVEL_INFO (some ['T']) ("ab\r".data)
        line_state_init).1 ++
      (logger_printf_line LOG_LEVEL_INFO (some ['T']) ("\n".data)
        (logger_printf_line LOG_LEVEL_INFO (some ['T']) ("ab\r".data)
          line_state_init).2).1 =
      [⟨LOG_LEVEL_INFO, ['T'], "ab".data⟩, ⟨LOG_LEVEL_INFO, ['T'], []⟩] := by
  decide

/-- **C4** (amended): the record sequence is chunking-independent — a
text fed as one call equals the same text fed as two calls with
identical level and (non-NULL, ≤47-character) tag — provided the split
point does not separate a `\r\n`/`\n\r` terminator pair (a split pair
yields an extra empty record, see the counterexample), the total text
fits the 255-byte per-call rendering bound and, together with the
pending bytes, the 1023-byte line buffer (so no forced buffer-exhaustion
flush occurs), and the pending attributes (if a line is pending) match
the calls. -/
theorem chunk_boundary_amended (lvl : LogLevel) (t c₁ c₂ : List Char)
    (st : LineState)
    (htlen : t.length ≤ TAG_CAP - 1)
    (hlen : c₁.length + c₂.length ≤ 255)
    (hcap : st.buf.length + c₁.length + c₂.length ≤ SYSLOG_MAX_MESSAGE_SIZE - 1)
    (hst : StOk lvl t st)
    (h1 : ¬ (c₁.getLast? = some '\r' ∧ c₂.head? = some '\n'))
    (h2 : ¬ (c₁.getLast? = some '\n' ∧ c₂.head? = some '\r')) :
    logger_printf_line lvl (some t) (c₁ ++ c₂) st =
      ((logger_printf_line lvl (some t) c₁ st).1 ++
        (logger_printf_line lvl (some t) c₂
          (logger_printf_line lvl (some t) c₁ st).2).1,
       (logger_printf_line lvl (some t) c₂
         (logger_printf_line lvl (some t) c₁ st).2).2) := by
  have h255 : (c₁ ++ c₂).take 255 = c₁ ++ c₂ :=
    List.take_of_length_le (by simp only [List.length_append]; omega)
  have h1t : c₁.take 255 = c₁ := List.take_of_length_le (by omega)
  have h2t : c₂.take 255 = c₂ := List.take_of_length_le (by omega)
  simp only [logger_printf_line, h255, h1t, h2t]
  rw [runLine_append_aux lvl t htlen c₁.length c₁ c₂ st le_rfl hcap hst h1 h2]
  rfl

/-- Witness for `chunk_boundary_amended`: the spec's example —
`"hello world\n"` in one call equals `"hello "` then `"world\n"` in two
calls with identical level and tag. -/
theorem chunk_boundary_amended_witness :
    logger_printf_line LOG_LEVEL_INFO (some ['T'])
        (("hello ".data) ++ ("world\n".data)) line_state_init =
      ((logger_printf_line LOG_LEVEL_INFO (some ['T']) ("hello ".data)
          line_state_init).1 ++
        (logger_printf_line LOG_LEVEL_INFO (some ['T']) ("world\n".data)
          (logger_printf_line LOG_LEVEL_INFO (some ['T']) ("hello ".data)
            line_state_init).2).1,
       (logger_printf_line LOG_LEVEL_INFO (some ['T']) ("world\n".data)
         (logger_printf_line LOG_LEVEL_INFO (some ['T']) ("hello ".data)
           line_state_init).2).2) :=
  chunk_boundary_amended LOG_LEVEL_INFO ['T'] ("hello ".data) ("world\n".data)
    line_state_init (by decide) (by decide) (by decide) (Or.inl rfl)
    (by decide) (by decide)

end Syslog2Proof
